import Mathlib

set_option autoImplicit false

/-!
Verification of the netview backend discovery core against its design
document.  The Python services are shallowly embedded: observation
dictionaries become structures with `Option` fields (`none` models an absent
key), SQLAlchemy tables become lists of row structures, wall-clock time is an
explicit integer parameter, and code paths that raise are modelled with
`Option` or an explicit outcome marker.
-/

namespace Netview

/-- A raw interface observation dictionary, one entry of a device
observation's `interfaces` list (`discovery.py`, interface upsert loop). -/
structure IfaceObs where
  ifIndex : Option Int := none
  name : Option String := none
  speed : Option Int := none
  mac : Option String := none
  adminStatus : Option String := none
  operStatus : Option String := none
deriving Repr, DecidableEq

/-- A raw device observation dictionary as produced by the probe adapters
(`fast_discovery.py`) and consumed by `run_discovery`, `build_topology`,
`DeviceCache` and `apply_user_mappings_to_device`.  `none` models an absent
dictionary key. -/
structure Obs where
  id : Option String := none
  hostname : Option String := none
  mgmtIp : Option String := none
  vendor : Option String := none
  model : Option String := none
  status : Option String := none
  mac : Option String := none
  interfaces : List IfaceObs := []
deriving Repr, DecidableEq

/-- Python truthiness of an optional string: `None` and `""` are falsy. -/
def truthyStr : Option String → Bool
  | none => false
  | some s => !(s == "")

/-- Keep an optional string only when it is Python-truthy. -/
def truthyOpt : Option String → Option String
  | none => none
  | some s => if s == "" then none else some s

/-! ### Device Cache (`backend/app/services/device_cache.py`) -/

/-- State of a `DeviceCache` object.  `cache_duration` is the TTL in seconds
(the constructor's `timedelta(minutes=cache_duration_minutes)`),
`last_update` the timestamp of the most recent update (seconds), and the
insertion-ordered Python dict `devices_cache` is modelled as an association
list. -/
structure DeviceCache where
  cache_duration : Int
  devices_cache : List (String × Obs)
  last_update : Option Int
deriving Repr, DecidableEq

/-- The `DeviceCache(cache_duration_minutes)` constructor.  Loading the
side cache file is I/O; the freshly constructed cache is modelled as the
empty snapshot (the file-loading branch that finds no file). -/
def DeviceCache.mk0 (cache_duration_minutes : Int) : DeviceCache :=
  { cache_duration := cache_duration_minutes * 60
    devices_cache := []
    last_update := none }

/-- The module-level `device_cache = DeviceCache()` instance with the default
TTL of 5 minutes. -/
def defaultDeviceCache : DeviceCache := DeviceCache.mk0 5

/-- `DeviceCache.is_cache_valid`: false when never updated, otherwise
`datetime.now() - self.last_update < self.cache_duration` with `now` passed
explicitly. -/
def is_cache_valid (c : DeviceCache) (now : Int) : Bool :=
  match c.last_update with
  | none => false
  | some t => decide (now - t < c.cache_duration)

/-- `DeviceCache.get_cached_devices`: `list(self.devices_cache.values())`
when the cache is valid, otherwise the empty list. -/
def get_cached_devices (c : DeviceCache) (now : Int) : List Obs :=
  if is_cache_valid c now then c.devices_cache.map Prod.snd else []

/-- The key under which `update_cache` stores a device:
`device.get('id', device.get('mgmtIp', ''))`. -/
def cacheKey (d : Obs) : String :=
  d.id.getD (d.mgmtIp.getD "")

/-- One step of Python dict construction: assigning `m[k] = v` overwrites the
value of an existing key in place and appends a fresh key at the end. -/
def dictInsert (m : List (String × Obs)) (k : String) (v : Obs) :
    List (String × Obs) :=
  if m.any (fun p => p.1 == k) then
    m.map (fun p => if p.1 == k then (k, v) else p)
  else m ++ [(k, v)]

/-- The dict comprehension in `DeviceCache.update_cache`:
`{device.get('id', device.get('mgmtIp', '')): device for device in devices}`. -/
def dictOfDevices (devices : List Obs) : List (String × Obs) :=
  devices.foldl (fun m d => dictInsert m (cacheKey d) d) []

/-- `DeviceCache.update_cache`: replace the snapshot wholesale and stamp the
update time (persisting to file is I/O and does not change the in-memory
state). -/
def update_cache (c : DeviceCache) (devices : List Obs) (now : Int) :
    DeviceCache :=
  { c with devices_cache := dictOfDevices devices, last_update := some now }

/-- `DeviceCache.get_device`: `self.devices_cache.get(device_id)`. -/
def get_device (c : DeviceCache) (device_id : String) : Option Obs :=
  (c.devices_cache.find? (fun p => p.1 == device_id)).map Prod.snd

/-! ### Topology Builder (`backend/app/services/topology_builder.py`) -/

/-- An LLDP neighbor-adjacency observation dictionary. -/
structure Neighbor where
  localDevice : Option String := none
  localPort : Option String := none
  chassisId : Option String := none
  portId : Option String := none
  sysName : Option String := none
deriving Repr, DecidableEq

/-- An edge dictionary produced by `build_topology`. -/
structure TopoEdge where
  id : String
  «from» : String
  «to» : String
  srcIfIndex : String
  dstIfIndex : String
  linkType : String
  vlanTags : List String
  confidence : Int
deriving Repr, DecidableEq

/-- The `{"nodes": ..., "edges": ...}` dictionary returned by
`build_topology`. -/
structure Topo where
  nodes : List Obs
  edges : List TopoEdge
deriving Repr, DecidableEq

/-- Method 1 of neighbor resolution: the first device whose `hostname` equals
the declared `sysName`, yielding its `mgmtIp` (always present under the
enclosing `device_map` guard of `build_topology`). -/
def resolveRemoteBySysName (devices : List Obs) (sysname : String) :
    Option String :=
  (devices.find? (fun d => d.hostname == some sysname)).bind (fun d => d.mgmtIp)

/-- Method 2 of neighbor resolution: the first device owning an interface
whose MAC equals the chassis id case-insensitively, yielding its `mgmtIp`. -/
def resolveRemoteByChassis (devices : List Obs) (chassis : String) :
    Option String :=
  (devices.find? (fun d =>
      d.interfaces.any (fun i =>
        (i.mac.getD "").toUpper == chassis.toUpper))).bind (fun d => d.mgmtIp)

/-- Remote-endpoint resolution for one neighbor observation: match the
declared system name against a device hostname first, and only if that
produced nothing fall back to matching the chassis id against interface
MACs.  Empty strings (the Python `get(..., '')` defaults) disable the
corresponding method. -/
def resolveRemote (devices : List Obs) (n : Neighbor) : Option String :=
  let sysname := n.sysName.getD ""
  let chassis := n.chassisId.getD ""
  match (if sysname == "" then none else resolveRemoteBySysName devices sysname) with
  | some ip => some ip
  | none => if chassis == "" then none else resolveRemoteByChassis devices chassis

/-- Per-neighbor edge construction in `build_topology`: skip observations
without a truthy `localDevice` and `localPort`, and emit an `lldp` edge with
confidence 90 exactly when the remote endpoint resolves to a device identity
distinct from the local one. -/
def edgeOfNeighbor (devices : List Obs) (n : Neighbor) : Option TopoEdge :=
  if truthyStr n.localDevice && truthyStr n.localPort then
    match resolveRemote devices n with
    | some nip =>
      if nip == n.localDevice.getD "" then none
      else some
        { id := n.localDevice.getD "" ++ ":" ++ n.localPort.getD "" ++ "-"
                  ++ nip ++ ":" ++ n.portId.getD ""
          «from» := n.localDevice.getD ""
          «to» := nip
          srcIfIndex := n.localPort.getD ""
          dstIfIndex := n.portId.getD ""
          linkType := "lldp"
          vlanTags := []
          confidence := 90 }
    | none => none
  else none

/-- The first deduplication key of an edge, `f"{edge['from']}-{edge['to']}"`. -/
def edgeKey1 (e : TopoEdge) : String := e.«from» ++ "-" ++ e.«to»

/-- The second deduplication key of an edge, `f"{edge['to']}-{edge['from']}"`. -/
def edgeKey2 (e : TopoEdge) : String := e.«to» ++ "-" ++ e.«from»

/-- Two edges connect the same unordered pair of device identities. -/
def samePairB (e1 e2 : TopoEdge) : Bool :=
  (e1.«from» == e2.«from» && e1.«to» == e2.«to») ||
    (e1.«from» == e2.«to» && e1.«to» == e2.«from»)

/-- Bidirectional-duplicate elimination of `build_topology`: keep an edge only
when neither `from-to` nor `to-from` is in the seen-key set, then record both
keys.  The Python `set` is modelled as a list queried by membership. -/
def dedupEdgesAux : List TopoEdge → List String → List TopoEdge
  | [], _ => []
  | e :: rest, seen =>
    if !(seen.contains (edgeKey1 e)) && !(seen.contains (edgeKey2 e)) then
      e :: dedupEdgesAux rest (edgeKey1 e :: edgeKey2 e :: seen)
    else
      dedupEdgesAux rest seen

/-- The duplicate-elimination pass over the raw edge list. -/
def dedupEdges (edges : List TopoEdge) : List TopoEdge :=
  dedupEdgesAux edges []

/-- `build_topology(devices, forwarding_tables, neighbors)`.  The
`device_map` comprehension subscripts `device['mgmtIp']` for every device, so
the function raises `KeyError` (modelled as `none`) when any device
observation lacks a `mgmtIp` key; otherwise it returns the input device list
as `nodes` unchanged together with the deduplicated edge list.
`forwarding_tables` is accepted and unused, as in the source. -/
def build_topology (devices : List Obs) (forwarding_tables : List Unit)
    (neighbors : List Neighbor) : Option Topo :=
  if devices.all (fun d => d.mgmtIp.isSome) then
    some { nodes := devices
           edges := dedupEdges (neighbors.filterMap (edgeOfNeighbor devices)) }
  else none

/-! ### User settings (`backend/app/services/user_settings.py`) -/

/-- A row of the `user_settings` table (`models.py`): a mapping override
keyed by MAC or IP, distinguished by `device_type`. -/
structure UserSettingsRow where
  id : String
  device_type : String
  vendor : Option String := none
  model : Option String := none
  hostname : Option String := none
  notes : Option String := none
deriving Repr, DecidableEq

/-- The mapping dictionary returned by
`UserSettingsService.get_device_mapping`. -/
structure Mapping where
  vendor : Option String := none
  model : Option String := none
  hostname : Option String := none
  notes : Option String := none
deriving Repr, DecidableEq

/-- `UserSettingsService.get_device_mapping`: first row matching both the
identifier and the device type, projected to the mapping dictionary. -/
def get_device_mapping (rows : List UserSettingsRow)
    (identifier device_type : String) : Option Mapping :=
  (rows.find? (fun s => s.id == identifier && s.device_type == device_type)).map
    (fun s => { vendor := s.vendor, model := s.model
                hostname := s.hostname, notes := s.notes })

/-- The MAC branch of `apply_user_mappings_to_device`: the lookup is consulted
only when the device's `mac` is truthy and not the literal `"Unknown"`. -/
def macLookup (rows : List UserSettingsRow) (dd : Obs) : Option Mapping :=
  match dd.mac with
  | some m =>
    if m == "" || m == "Unknown" then none
    else get_device_mapping rows m "mac_mapping"
  | none => none

/-- The IP fallback branch of `apply_user_mappings_to_device`: consulted only
when the device's `mgmtIp` is truthy. -/
def ipLookup (rows : List UserSettingsRow) (dd : Obs) : Option Mapping :=
  match dd.mgmtIp with
  | some ip =>
    if ip == "" then none
    else get_device_mapping rows ip "ip_mapping"
  | none => none

/-- Application of a found mapping: vendor and model are always overwritten
(even with `None` values), hostname only when the mapping's hostname is
truthy. -/
def applyMapping (dd : Obs) (mm : Mapping) : Obs :=
  let dd1 := { dd with vendor := mm.vendor, model := mm.model }
  match mm.hostname with
  | some h => if h == "" then dd1 else { dd1 with hostname := some h }
  | none => dd1

/-- `UserSettingsService.apply_user_mappings_to_device`: try the MAC mapping
first and return on a hit; otherwise try the IP mapping; otherwise return the
input unchanged. -/
def apply_user_mappings_to_device (rows : List UserSettingsRow) (dd : Obs) :
    Obs :=
  match macLookup rows dd with
  | some mm => applyMapping dd mm
  | none =>
    match ipLookup rows dd with
    | some im => applyMapping dd im
    | none => dd

/-! ### Discovery orchestrator (`backend/app/services/discovery.py`)

The SQLAlchemy session (created with `autoflush=False`, `models.py`) is
modelled explicitly: each table is a list of rows; queries see committed rows
(with in-session attribute updates visible through the identity map) but not
pending `db.add` inserts, which are kept in a separate pending list and
flushed at `db.commit()`.  A flush whose INSERT collides with an existing
primary key raises `IntegrityError`. -/

/-- A row of the `devices` table. -/
structure DeviceRow where
  id : String
  hostname : Option String := none
  mgmt_ip : Option String := none
  vendor : Option String := none
  model : Option String := none
  status : Option String := none
deriving Repr, DecidableEq

/-- A row of the `interfaces` table. -/
structure IfaceRow where
  id : String
  device_id : Option String := none
  if_index : Option Int := none
  name : Option String := none
  speed : Option Int := none
  mac : Option String := none
  admin_status : Option String := none
  oper_status : Option String := none
deriving Repr, DecidableEq

/-- The value stored in an edge row's interface-index column:
`e.get("srcIfIndex") or 0` keeps the string when truthy and falls back to
the integer `0`. -/
inductive IxVal where
  | s (v : String)
  | i (v : Int)
deriving Repr, DecidableEq

/-- A row of the `edges` table. -/
structure EdgeRow where
  id : String
  src_device_id : String
  src_if_index : IxVal
  dst_device_id : String
  dst_if_index : IxVal
  link_type : String
  vlan_tags : List String
  confidence : Int
deriving Repr, DecidableEq

/-- The persisted inventory: the three tables mutated by the orchestrator. -/
structure Inventory where
  devices : List DeviceRow
  interfaces : List IfaceRow
  edges : List EdgeRow
deriving Repr, DecidableEq

/-- A node dictionary of the empty-probe early return of `run_discovery`. -/
structure NodeView where
  id : String
  label : String
  title : Option String
  group : String
deriving Repr, DecidableEq

/-- Rendering of a persisted device row in the empty-probe early return:
`label = d.hostname or d.id`, `group = d.vendor or "device"`. -/
def nodeViewOf (d : DeviceRow) : NodeView :=
  { id := d.id
    label := match d.hostname with
      | some h => if h == "" then d.id else h
      | none => d.id
    title := d.mgmt_ip
    group := match d.vendor with
      | some v => if v == "" then "device" else v
      | none => "device" }

/-- The value returned by `run_discovery`: either the early-return dictionary
of the empty-probe branch (prior devices as view nodes plus a literal empty
edge list) or the topology dictionary of `build_topology`. -/
inductive DiscoveryResult where
  | cached (nodes : List NodeView) (edges : List EdgeRow) : DiscoveryResult
  | topo (t : Topo) : DiscoveryResult
deriving Repr, DecidableEq

/-- Outcome of one epoch: a returned value, or an uncaught exception
(`KeyError` in `build_topology` or `IntegrityError` on commit), after which
the session is closed without committing its pending work. -/
inductive EpochOutcome where
  | ok (res : DiscoveryResult) : EpochOutcome
  | raised : EpochOutcome
deriving Repr, DecidableEq

/-- The raw value `d.get("id") or d.get("mgmtIp")` used as device key. -/
def deviceKeyRaw (d : Obs) : Option String :=
  match truthyOpt d.id with
  | some s => some s
  | none => d.mgmtIp

/-- The device key actually used by the device upsert loop, which skips an
observation whose raw key is falsy (`if not device_id: continue`). -/
def keyOf (d : Obs) : Option String :=
  truthyOpt (deviceKeyRaw d)

/-- Field assignment of the device upsert: every column is overwritten from
the observation (`d.get(...)`, hence `None` when the key is absent), with
`status` defaulting to `"up"`. -/
def updDevice (d : Obs) (r : DeviceRow) : DeviceRow :=
  { r with hostname := d.hostname
           mgmt_ip := d.mgmtIp
           vendor := d.vendor
           model := d.model
           status := some (d.status.getD "up") }

/-- One iteration of the device upsert loop over the session state
`(committed table, pending inserts)`: a falsy key is skipped; a key found in
the table is updated in place; otherwise a fresh row is added to the pending
inserts (invisible to later queries because `autoflush=False`). -/
def upsertDeviceStep (st : List DeviceRow × List DeviceRow) (d : Obs) :
    List DeviceRow × List DeviceRow :=
  match keyOf d with
  | none => st
  | some k =>
    if st.1.any (fun r => r.id == k) then
      (st.1.map (fun r => if r.id == k then updDevice d r else r), st.2)
    else
      (st.1, st.2 ++ [updDevice d { id := k }])

/-- Python `str()` of the raw device key inside the interface-id f-string
(`None` prints as `"None"`). -/
def pyStrOptS : Option String → String
  | none => "None"
  | some s => s

/-- Python `str()` of an optional integer inside the interface-id f-string. -/
def pyStrOptI : Option Int → String
  | none => "None"
  | some n => toString n

/-- The interface primary key `f"{device_id}:{i.get('ifIndex')}"`. -/
def ifaceIdOf (d : Obs) (i : IfaceObs) : String :=
  pyStrOptS (deviceKeyRaw d) ++ ":" ++ pyStrOptI i.ifIndex

/-- Field assignment of the interface upsert. -/
def updIface (i : IfaceObs) (r : IfaceRow) : IfaceRow :=
  { r with name := i.name
           speed := i.speed
           mac := i.mac
           admin_status := i.adminStatus
           oper_status := i.operStatus }

/-- One iteration of the interface upsert loop (no skip of falsy device
keys here, faithfully to the source). -/
def upsertIfaceStep (st : List IfaceRow × List IfaceRow) (p : Obs × IfaceObs) :
    List IfaceRow × List IfaceRow :=
  let iid := ifaceIdOf p.1 p.2
  if st.1.any (fun r => r.id == iid) then
    (st.1.map (fun r => if r.id == iid then updIface p.2 r else r), st.2)
  else
    (st.1, st.2 ++ [updIface p.2
      { id := iid, device_id := deviceKeyRaw p.1, if_index := p.2.ifIndex }])

/-- Conversion of a topology edge dictionary to an `edges` table row
(`run_discovery`, edge replacement loop), with the Python `or` defaults. -/
def edgeRowOf (e : TopoEdge) : EdgeRow :=
  { id := e.id
    src_device_id := e.«from»
    src_if_index := if e.srcIfIndex == "" then .i 0 else .s e.srcIfIndex
    dst_device_id := e.«to»
    dst_if_index := if e.dstIfIndex == "" then .i 0 else .s e.dstIfIndex
    link_type := if e.linkType == "" then "unknown" else e.linkType
    vlan_tags := e.vlanTags
    confidence := if e.confidence == 0 then 100 else e.confidence }

/-- Flushing pending inserts into a table one by one: an insert whose primary
key already exists fails (`IntegrityError`), modelled as `none`. -/
def insertAll {α : Type} (idOf : α → String) : List α → List α → Option (List α)
  | table, [] => some table
  | table, p :: rest =>
    if table.any (fun r => idOf r == idOf p) then none
    else insertAll idOf (table ++ [p]) rest

/-- `DiscoveryService.run_discovery(db)` with the probe result `obs` passed
explicitly (the awaited `fast_discovery.discover_devices()` value).  Returns
the post-epoch persisted inventory together with the outcome.  The
`device_map` local of the source is dead code and elided.  On an uncaught
exception the post state is the last committed one: the original inventory,
or the emptied inventory when the network-change branch already committed its
deletions. -/
def run_discovery (obs : List Obs) (db : Inventory) :
    Inventory × EpochOutcome :=
  if obs.isEmpty then
    (db, .ok (.cached (db.devices.map nodeViewOf) []))
  else
    let current_ips := obs.filterMap (fun d => truthyOpt d.mgmtIp)
    let existing_ips := db.devices.map (fun d => d.mgmt_ip)
    let networkChange :=
      !db.devices.isEmpty &&
        current_ips.all (fun s => !(existing_ips.contains (some s)))
    let db1 : Inventory := if networkChange then ⟨[], [], []⟩ else db
    let dstate := obs.foldl upsertDeviceStep (db1.devices, [])
    let ifacePairs := obs.flatMap (fun d => d.interfaces.map (fun i => (d, i)))
    let istate := ifacePairs.foldl upsertIfaceStep (db1.interfaces, [])
    match build_topology obs [] [] with
    | none => (db1, .raised)
    | some topo =>
      let newEdges := topo.edges.map edgeRowOf
      match insertAll DeviceRow.id dstate.1 dstate.2,
            insertAll IfaceRow.id istate.1 istate.2,
            insertAll EdgeRow.id [] newEdges with
      | some ds, some ifs, some es =>
        (⟨ds, ifs, es⟩, .ok (.topo topo))
      | _, _, _ => (db1, .raised)

/-! ### Lemmas about the cache dictionary -/

/-- Overwriting an existing key does not change lookups of other keys. -/
theorem dictInsert_map_find?_ne (m : List (String × Obs)) (k : String) (v : Obs)
    (a : String) (hne : a ≠ k) :
    (m.map (fun p => if p.1 == k then (k, v) else p)).find? (fun p => p.1 == a)
      = m.find? (fun p => p.1 == a) := by
  induction m with
  | nil => rfl
  | cons p rest ih =>
    by_cases hpk : p.1 = k
    · have h1 : (if p.1 == k then (k, v) else p) = (k, v) := by simp [hpk]
      rw [List.map_cons, h1, List.find?_cons_of_neg, List.find?_cons_of_neg, ih]
      · simp [hpk, Ne.symm hne]
      · simp [Ne.symm hne]
    · have h1 : (if p.1 == k then (k, v) else p) = p := by simp [hpk]
      rw [List.map_cons, h1]
      by_cases hpa : p.1 = a
      · rw [List.find?_cons_of_pos, List.find?_cons_of_pos] <;> simp [hpa]
      · rw [List.find?_cons_of_neg, List.find?_cons_of_neg, ih] <;> simp [hpa]

/-- Overwriting an existing key makes lookups of that key return the new
value, provided the key was present. -/
theorem dictInsert_map_find?_self (m : List (String × Obs)) (k : String)
    (v : Obs) :
    (m.map (fun p => if p.1 == k then (k, v) else p)).find? (fun p => p.1 == k)
      = (m.find? (fun p => p.1 == k)).map (fun _ => (k, v)) := by
  induction m with
  | nil => rfl
  | cons p rest ih =>
    by_cases hpk : p.1 = k
    · have h1 : (if p.1 == k then (k, v) else p) = (k, v) := by simp [hpk]
      rw [List.map_cons, h1, List.find?_cons_of_pos, List.find?_cons_of_pos]
      · rfl
      · simp [hpk]
      · simp
    · have h1 : (if p.1 == k then (k, v) else p) = p := by simp [hpk]
      rw [List.map_cons, h1, List.find?_cons_of_neg, List.find?_cons_of_neg, ih]
      · simp [hpk]
      · simp [hpk]

/-- Lookup after a single Python dict assignment. -/
theorem dictInsert_find? (m : List (String × Obs)) (k : String) (v : Obs)
    (a : String) :
    (dictInsert m k v).find? (fun p => p.1 == a)
      = if a = k then some (k, v) else m.find? (fun p => p.1 == a) := by
  unfold dictInsert
  by_cases hany : m.any (fun p => p.1 == k)
  · rw [if_pos hany]
    by_cases hak : a = k
    · subst hak
      rw [dictInsert_map_find?_self, if_pos rfl]
      rcases hfind : m.find? (fun p => p.1 == a) with _ | p
      · rw [List.find?_eq_none] at hfind
        rw [List.any_eq_true] at hany
        obtain ⟨x, hx, hxk⟩ := hany
        exact absurd hxk (hfind x hx)
      · rw [hfind]
        rfl
    · rw [dictInsert_map_find?_ne m k v a hak, if_neg hak]
  · rw [if_neg hany, List.find?_append]
    by_cases hak : a = k
    · subst hak
      have hnone : m.find? (fun p => p.1 == a) = none := by
        rw [List.find?_eq_none]
        intro x hx hxk
        exact hany (List.any_eq_true.mpr ⟨x, hx, hxk⟩)
      rw [hnone, if_pos rfl]
      simp [List.find?]
    · rw [if_neg hak]
      have hba : (k == a) = false := by simp [Ne.symm hak]
      have hsingle : ([(k, v)].find? (fun p => p.1 == a)) = none := by
        simp [List.find?, hba]
      rw [hsingle, Option.or_none]

/-- Lookup in the dict built by `update_cache`'s comprehension, relative to an
arbitrary accumulator: the last device with the looked-up key wins, falling
back to the accumulator. -/
theorem dictOf_foldl_find? (devices : List Obs) (m : List (String × Obs))
    (a : String) :
    (devices.foldl (fun m d => dictInsert m (cacheKey d) d) m).find?
        (fun p => p.1 == a)
      = ((devices.reverse.find? (fun d => cacheKey d == a)).map
          (fun d => (a, d))).or (m.find? (fun p => p.1 == a)) := by
  induction devices generalizing m with
  | nil => simp
  | cons d rest ih =>
    rw [List.foldl_cons, ih, List.reverse_cons, List.find?_append]
    rcases hA : rest.reverse.find? (fun d => cacheKey d == a) with _ | d'
    · rw [dictInsert_find?]
      by_cases hak : a = cacheKey d
      · have hb : ([d].find? (fun d => cacheKey d == a)) = some d := by
          simp [List.find?, hak]
        rw [if_pos hak, hb]
        simp [Option.or, hak]
      · have hba : (cacheKey d == a) = false := by simp [Ne.symm hak]
        have hb : ([d].find? (fun d => cacheKey d == a)) = none := by
          simp [List.find?, hba]
        rw [if_neg hak, hb]
        simp [Option.or]
    · simp [Option.or]

/-- The keys after a single dict assignment. -/
theorem dictInsert_keys (m : List (String × Obs)) (k : String) (v : Obs) :
    (dictInsert m k v).map Prod.fst
      = if m.any (fun p => p.1 == k) then m.map Prod.fst
        else m.map Prod.fst ++ [k] := by
  unfold dictInsert
  by_cases hany : m.any (fun p => p.1 == k)
  · rw [if_pos hany, if_pos hany, List.map_map]
    apply List.map_congr_left
    intro p _
    by_cases hpk : p.1 = k <;> simp [hpk]
  · rw [if_neg hany, if_neg hany, List.map_append]
    rfl

/-- A dict assignment preserves distinctness of the stored keys. -/
theorem dictInsert_nodupKeys (m : List (String × Obs)) (k : String) (v : Obs)
    (h : (m.map Prod.fst).Nodup) : ((dictInsert m k v).map Prod.fst).Nodup := by
  rw [dictInsert_keys]
  by_cases hany : m.any (fun p => p.1 == k)
  · rwa [if_pos hany]
  · rw [if_neg hany, List.nodup_append]
    refine ⟨h, List.nodup_singleton k, ?_⟩
    intro x hx hk
    rw [List.mem_singleton] at hk
    subst hk
    obtain ⟨p, hp, hpk⟩ := List.mem_map.mp hx
    exact hany (List.any_eq_true.mpr ⟨p, hp, by simp [hpk]⟩)

/-- The dict built by the comprehension has pairwise-distinct keys. -/
theorem dictOf_foldl_nodupKeys (devices : List Obs) (m : List (String × Obs))
    (h : (m.map Prod.fst).Nodup) :
    (((devices.foldl (fun m d => dictInsert m (cacheKey d) d) m)).map
        Prod.fst).Nodup := by
  induction devices generalizing m with
  | nil => exact h
  | cons d rest ih => exact ih _ (dictInsert_nodupKeys _ _ _ h)

/-- A dict assignment grows the dict by at most one entry. -/
theorem dictInsert_length (m : List (String × Obs)) (k : String) (v : Obs) :
    (dictInsert m k v).length ≤ m.length + 1 := by
  unfold dictInsert
  by_cases hany : m.any (fun p => p.1 == k)
  · rw [if_pos hany, List.length_map]
    exact Nat.le_succ _
  · rw [if_neg hany, List.length_append]
    exact Nat.le_refl _

/-- The dict built by the comprehension never has more entries than the input
list has devices. -/
theorem dictOf_foldl_length (devices : List Obs) (m : List (String × Obs)) :
    (devices.foldl (fun m d => dictInsert m (cacheKey d) d) m).length
      ≤ m.length + devices.length := by
  induction devices generalizing m with
  | nil => exact Nat.le_refl _
  | cons d rest ih =>
    calc (rest.foldl (fun m d => dictInsert m (cacheKey d) d)
            (dictInsert m (cacheKey d) d)).length
        ≤ (dictInsert m (cacheKey d) d).length + rest.length := ih _
      _ ≤ (m.length + 1) + rest.length :=
          Nat.add_le_add_right (dictInsert_length _ _ _) _
      _ = m.length + (rest.length + 1) := by omega

/-! ### Claim C8: cache validity window -/

/-- C8: cache validity is exactly `now - lastUpdate < ttl` with a default TTL
of 5 minutes (300 seconds): a snapshot written at time `T` through the
default cache reports valid at any time with `now - T < 300` — in particular
at `T + 299` — and invalid at `T + 300` and `T + 301`. -/
theorem C8_cache_validity (devices : List Obs) (T now : Int) :
    (update_cache defaultDeviceCache devices T).cache_duration = 5 * 60
    ∧ (is_cache_valid (update_cache defaultDeviceCache devices T) now = true
        ↔ now - T < 5 * 60)
    ∧ is_cache_valid (update_cache defaultDeviceCache devices T) (T + 299) = true
    ∧ is_cache_valid (update_cache defaultDeviceCache devices T) (T + 300) = false
    ∧ is_cache_valid (update_cache defaultDeviceCache devices T) (T + 301) = false := by
  refine ⟨rfl, ?_, ?_, ?_, ?_⟩ <;>
    simp [is_cache_valid, update_cache, defaultDeviceCache, DeviceCache.mk0]

/-! ### Claim C2: expired cache reads -/

/-- C2 counterexample: a snapshot stored at time 0 through the default cache
is returned by `get_cached_devices` while the cache is valid (at 100 s), but
once the 300 s TTL has elapsed (at 301 s) the read returns the empty list
even though the snapshot is still stored — the stored data is dropped from
the read, contradicting the claim that the expired read still returns the
last snapshot. -/
theorem C2_counterexample :
    get_cached_devices
        (update_cache defaultDeviceCache [({ id := some "dev1" } : Obs)] 0) 100
      = [({ id := some "dev1" } : Obs)]
    ∧ get_cached_devices
        (update_cache defaultDeviceCache [({ id := some "dev1" } : Obs)] 0) 301
      = []
    ∧ (update_cache defaultDeviceCache [({ id := some "dev1" } : Obs)]
        0).devices_cache.map Prod.snd = [({ id := some "dev1" } : Obs)] := by
  decide

/-- C2 amended: `get_cached_devices` returns the stored snapshot only while
the cache is within its TTL; once the TTL has elapsed it returns the empty
list.  The stored snapshot itself is not evicted — it remains in
`devices_cache` — but an expired read does not return it. -/
theorem C2_amended_gated_read (c : DeviceCache) (devices : List Obs)
    (T now : Int) :
    (is_cache_valid (update_cache c devices T) now = true →
      get_cached_devices (update_cache c devices T) now
        = (update_cache c devices T).devices_cache.map Prod.snd)
    ∧ (is_cache_valid (update_cache c devices T) now = false →
      get_cached_devices (update_cache c devices T) now = [])
    ∧ (update_cache c devices T).devices_cache = dictOfDevices devices := by
  refine ⟨?_, ?_, rfl⟩ <;> intro h <;> simp [get_cached_devices, h]

/-- Witness for C2 amended at a concrete cache: a valid read at 100 s returns
the snapshot and an expired read at 301 s returns the empty list. -/
theorem C2_amended_gated_read_witness :
    get_cached_devices
        (update_cache defaultDeviceCache [({ id := some "dev1" } : Obs)] 0) 100
      = (update_cache defaultDeviceCache [({ id := some "dev1" } : Obs)]
          0).devices_cache.map Prod.snd
    ∧ get_cached_devices
        (update_cache defaultDeviceCache [({ id := some "dev1" } : Obs)] 0) 301
      = [] :=
  ⟨(C2_amended_gated_read defaultDeviceCache [({ id := some "dev1" } : Obs)]
      0 100).1 (by decide),
   (C2_amended_gated_read defaultDeviceCache [({ id := some "dev1" } : Obs)]
      0 301).2.1 (by decide)⟩

/-! ### Claim C10: cache keying and last-occurrence collapse -/

/-- C10: `update_cache` keys each stored device by `id`, falling back to
`mgmtIp`, then to `""` (the definition of `cacheKey`); the stored dict has
pairwise-distinct keys, never more entries than the input list, and
`get_device k` returns exactly the last device of the input list whose key
equals `k`. -/
theorem C10_update_cache_keying (c : DeviceCache) (devices : List Obs)
    (T : Int) (k : String) :
    ((update_cache c devices T).devices_cache.map Prod.fst).Nodup
    ∧ (update_cache c devices T).devices_cache.length ≤ devices.length
    ∧ get_device (update_cache c devices T) k
        = devices.reverse.find? (fun d => cacheKey d == k) := by
  refine ⟨?_, ?_, ?_⟩
  · exact dictOf_foldl_nodupKeys devices [] (by simp)
  · have h := dictOf_foldl_length devices []
    simpa [update_cache, dictOfDevices] using h
  · have hget : get_device (update_cache c devices T) k
        = ((dictOfDevices devices).find? (fun p => p.1 == k)).map Prod.snd := rfl
    rw [hget, dictOfDevices, dictOf_foldl_find?]
    rcases devices.reverse.find? (fun d => cacheKey d == k) with _ | d <;>
      simp [Option.or]

/-! ### Lemmas about edge deduplication -/

/-- Edges connecting the same unordered pair have the same two deduplication
keys, either aligned or swapped. -/
theorem samePair_keys (f e : TopoEdge) (h : samePairB f e = true) :
    (edgeKey1 f = edgeKey1 e ∧ edgeKey2 f = edgeKey2 e)
    ∨ (edgeKey1 f = edgeKey2 e ∧ edgeKey2 f = edgeKey1 e) := by
  simp only [samePairB, Bool.or_eq_true, Bool.and_eq_true, beq_iff_eq] at h
  rcases h with ⟨h1, h2⟩ | ⟨h1, h2⟩
  · exact Or.inl ⟨by rw [edgeKey1, edgeKey1, h1, h2],
      by rw [edgeKey2, edgeKey2, h1, h2]⟩
  · exact Or.inr ⟨by rw [edgeKey1, edgeKey2, h1, h2],
      by rw [edgeKey2, edgeKey1, h1, h2]⟩

/-- Structure of the deduplicated output: every kept edge has its keys
outside the initial seen set and is the first input edge of its unordered
pair. -/
theorem dedupAux_spec (l : List TopoEdge) (seen : List String) (e : TopoEdge)
    (he : e ∈ dedupEdgesAux l seen) :
    edgeKey1 e ∉ seen ∧ edgeKey2 e ∉ seen
    ∧ ∃ l1 l2, l = l1 ++ e :: l2 ∧ ∀ f ∈ l1, samePairB f e = false := by
  induction l generalizing seen with
  | nil => simp [dedupEdgesAux] at he
  | cons e0 rest ih =>
    rw [dedupEdgesAux] at he
    by_cases h0 : (!(seen.contains (edgeKey1 e0))
        && !(seen.contains (edgeKey2 e0))) = true
    · rw [if_pos h0] at he
      have h0p : edgeKey1 e0 ∉ seen ∧ edgeKey2 e0 ∉ seen := by simpa using h0
      rcases List.mem_cons.mp he with rfl | hrec
      · exact ⟨h0p.1, h0p.2, [], rest, rfl, by simp⟩
      · obtain ⟨hk1, hk2, l1, l2, hdec, hfirst⟩ := ih _ hrec
        have hk1s : edgeKey1 e ∉ seen := fun hm => hk1 (by simp [hm])
        have hk2s : edgeKey2 e ∉ seen := fun hm => hk2 (by simp [hm])
        have hne : samePairB e0 e = false := by
          by_contra hsp
          rw [Bool.not_eq_false] at hsp
          rcases samePair_keys e0 e hsp with ⟨ha, _⟩ | ⟨_, hb⟩
          · exact hk1 (by simp [← ha])
          · exact hk1 (by simp [← hb])
        refine ⟨hk1s, hk2s, e0 :: l1, l2, by simp [hdec], ?_⟩
        intro f hf
        rcases List.mem_cons.mp hf with rfl | hfl
        · exact hne
        · exact hfirst f hfl
    · rw [if_neg h0] at he
      obtain ⟨hk1, hk2, l1, l2, hdec, hfirst⟩ := ih _ he
      have h0' : edgeKey1 e0 ∈ seen ∨ edgeKey2 e0 ∈ seen := by
        by_contra hc
        push_neg at hc
        exact h0 (by simpa using hc)
      have hne : samePairB e0 e = false := by
        by_contra hsp
        rw [Bool.not_eq_false] at hsp
        rcases samePair_keys e0 e hsp with ⟨ha, hb⟩ | ⟨ha, hb⟩
        · rcases h0' with hm | hm
          · exact hk1 (ha ▸ hm)
          · exact hk2 (hb ▸ hm)
        · rcases h0' with hm | hm
          · exact hk2 (ha ▸ hm)
          · exact hk1 (hb ▸ hm)
      refine ⟨hk1, hk2, e0 :: l1, l2, by simp [hdec], ?_⟩
      intro f hf
      rcases List.mem_cons.mp hf with rfl | hfl
      · exact hne
      · exact hfirst f hfl

/-- No two edges of the deduplicated output connect the same unordered
pair. -/
theorem dedupAux_pairwise (l : List TopoEdge) (seen : List String) :
    (dedupEdgesAux l seen).Pairwise (fun a b => samePairB a b = false) := by
  induction l generalizing seen with
  | nil => simp [dedupEdgesAux]
  | cons e0 rest ih =>
    rw [dedupEdgesAux]
    by_cases h0 : (!(seen.contains (edgeKey1 e0))
        && !(seen.contains (edgeKey2 e0))) = true
    · rw [if_pos h0]
      refine List.Pairwise.cons ?_ (ih _)
      intro b hb
      obtain ⟨hk1, _, _⟩ := dedupAux_spec _ _ _ hb
      by_contra hsp
      rw [Bool.not_eq_false] at hsp
      rcases samePair_keys e0 b hsp with ⟨ha, _⟩ | ⟨_, hb2⟩
      · exact hk1 (by simp [← ha])
      · exact hk1 (by simp [← hb2])
    · rw [if_neg h0]
      exact ih _

/-- Inversion of per-neighbor edge construction: an emitted edge is an `lldp`
edge with confidence 90 whose endpoints are the neighbor's local device and
the resolved remote device, and the two are distinct. -/
theorem edgeOfNeighbor_some (devices : List Obs) (n : Neighbor) (e : TopoEdge)
    (h : edgeOfNeighbor devices n = some e) :
    e.linkType = "lldp" ∧ e.confidence = 90
    ∧ resolveRemote devices n = some e.«to»
    ∧ e.«to» ≠ e.«from»
    ∧ n.localDevice = some e.«from» := by
  unfold edgeOfNeighbor at h
  split at h
  · split at h
    · rename_i hg hx nip hr
      split at h
      · exact absurd h (by simp)
      · rename_i hip
        injection h with h
        subst h
        refine ⟨rfl, rfl, hr, ?_, ?_⟩
        · intro hEq
          refine hip ?_
          have hEq' : nip = n.localDevice.getD "" := hEq
          simp [hEq']
        · have ht : truthyStr n.localDevice = true := by
            have hg' := hg
            simp only [Bool.and_eq_true] at hg'
            exact hg'.1
          rcases hnd : n.localDevice with _ | s
          · rw [hnd] at ht
            simp [truthyStr] at ht
          · simp [hnd]
    · exact absurd h (by simp)
  · exact absurd h (by simp)

/-! ### Claim C5: bidirectional-duplicate elimination -/

/-- C5: in the edge list returned by `build_topology`, no two edges connect
the same unordered pair of device identities; each returned edge is the
first raw edge (in adjacency-observation order) of its unordered pair, and
every earlier raw edge connects a different pair. -/
theorem C5_edge_dedup (devices : List Obs) (fts : List Unit)
    (neighbors : List Neighbor) (t : Topo)
    (h : build_topology devices fts neighbors = some t) :
    t.edges.Pairwise (fun a b => samePairB a b = false)
    ∧ ∀ e ∈ t.edges,
        ∃ l1 l2,
          neighbors.filterMap (edgeOfNeighbor devices) = l1 ++ e :: l2
          ∧ ∀ f ∈ l1, samePairB f e = false := by
  unfold build_topology at h
  by_cases hall : devices.all (fun d => d.mgmtIp.isSome) = true
  · rw [if_pos hall] at h
    injection h with h
    subst h
    refine ⟨dedupAux_pairwise _ _, ?_⟩
    intro e he
    obtain ⟨_, _, l1, l2, hdec, hfirst⟩ := dedupAux_spec _ _ _ he
    exact ⟨l1, l2, hdec, hfirst⟩
  · rw [if_neg hall] at h
    exact absurd h (by simp)

/-- Witness for C5 at a concrete input: two devices reporting each other as
LLDP neighbors produce exactly one edge, and that edge satisfies the dedup
invariant. -/
theorem C5_edge_dedup_witness :
    build_topology
        [({ hostname := some "a", mgmtIp := some "1.1.1.1" } : Obs),
         ({ hostname := some "b", mgmtIp := some "2.2.2.2" } : Obs)] []
        [({ localDevice := some "1.1.1.1", localPort := some "p1",
            sysName := some "b" } : Neighbor),
         ({ localDevice := some "2.2.2.2", localPort := some "p2",
            sysName := some "a" } : Neighbor)]
      = some ⟨[({ hostname := some "a", mgmtIp := some "1.1.1.1" } : Obs),
               ({ hostname := some "b", mgmtIp := some "2.2.2.2" } : Obs)],
              [({ id := "1.1.1.1:p1-2.2.2.2:", «from» := "1.1.1.1",
                  «to» := "2.2.2.2", srcIfIndex := "p1", dstIfIndex := "",
                  linkType := "lldp", vlanTags := [],
                  confidence := 90 } : TopoEdge)]⟩
    ∧ ([({ id := "1.1.1.1:p1-2.2.2.2:", «from» := "1.1.1.1",
           «to» := "2.2.2.2", srcIfIndex := "p1", dstIfIndex := "",
           linkType := "lldp", vlanTags := [],
           confidence := 90 } : TopoEdge)]).Pairwise
        (fun a b => samePairB a b = false) :=
  ⟨by decide,
   (C5_edge_dedup
      [({ hostname := some "a", mgmtIp := some "1.1.1.1" } : Obs),
       ({ hostname := some "b", mgmtIp := some "2.2.2.2" } : Obs)] []
      [({ localDevice := some "1.1.1.1", localPort := some "p1",
          sysName := some "b" } : Neighbor),
       ({ localDevice := some "2.2.2.2", localPort := some "p2",
          sysName := some "a" } : Neighbor)]
      ⟨[({ hostname := some "a", mgmtIp := some "1.1.1.1" } : Obs),
        ({ hostname := some "b", mgmtIp := some "2.2.2.2" } : Obs)],
       [({ id := "1.1.1.1:p1-2.2.2.2:", «from» := "1.1.1.1",
           «to» := "2.2.2.2", srcIfIndex := "p1", dstIfIndex := "",
           linkType := "lldp", vlanTags := [],
           confidence := 90 } : TopoEdge)]⟩ (by decide)).1⟩

/-! ### Claim C6: purity of the topology builder -/

/-- C6: `build_topology` is a pure function of its inputs — two calls on
identical inputs return identical results — and whenever it returns, the
node list of the result is the input device list unchanged. -/
theorem C6_build_topology_pure (devices : List Obs) (fts : List Unit)
    (neighbors : List Neighbor) :
    build_topology devices fts neighbors = build_topology devices fts neighbors
    ∧ ∀ t, build_topology devices fts neighbors = some t →
        t.nodes = devices := by
  refine ⟨rfl, fun t h => ?_⟩
  unfold build_topology at h
  by_cases hall : devices.all (fun d => d.mgmtIp.isSome) = true
  · rw [if_pos hall] at h
    injection h with h
    rw [← h]
  · rw [if_neg hall] at h
    exact absurd h (by simp)

/-- Witness for C6 at a concrete input: the returned node list is the input
device list. -/
theorem C6_build_topology_pure_witness :
    (Topo.mk [({ mgmtIp := some "1.1.1.1" } : Obs)] []).nodes
      = [({ mgmtIp := some "1.1.1.1" } : Obs)] :=
  (C6_build_topology_pure [({ mgmtIp := some "1.1.1.1" } : Obs)] [] []).2
    (Topo.mk [({ mgmtIp := some "1.1.1.1" } : Obs)] []) (by decide)

/-! ### Claim C9: edge emission conditions -/

/-- C9: every edge returned by `build_topology` is an `lldp` edge with
confidence exactly 90, produced from some adjacency observation whose remote
endpoint `resolveRemote` resolved to a device identity distinct from the
local device; and `resolveRemote` tries the system-name match first, falling
back to the chassis-id/interface-MAC match only when the system-name method
yields nothing. -/
theorem C9_edge_conditions :
    (∀ (devices : List Obs) (fts : List Unit) (neighbors : List Neighbor)
        (t : Topo),
        build_topology devices fts neighbors = some t →
        ∀ e ∈ t.edges,
          e.linkType = "lldp" ∧ e.confidence = 90
          ∧ ∃ nb ∈ neighbors,
              edgeOfNeighbor devices nb = some e
              ∧ resolveRemote devices nb = some e.«to»
              ∧ e.«to» ≠ e.«from»
              ∧ nb.localDevice = some e.«from»)
    ∧ (∀ (devices : List Obs) (nb : Neighbor) (r : String),
        nb.sysName.getD "" ≠ "" →
        resolveRemoteBySysName devices (nb.sysName.getD "") = some r →
        resolveRemote devices nb = some r)
    ∧ (∀ (devices : List Obs) (nb : Neighbor),
        (if nb.sysName.getD "" == "" then none
         else resolveRemoteBySysName devices (nb.sysName.getD "")) = none →
        resolveRemote devices nb
          = (if nb.chassisId.getD "" == "" then none
             else resolveRemoteByChassis devices (nb.chassisId.getD ""))) := by
  refine ⟨?_, ?_, ?_⟩
  · intro devices fts neighbors t h e he
    unfold build_topology at h
    by_cases hall : devices.all (fun d => d.mgmtIp.isSome) = true
    · rw [if_pos hall] at h
      injection h with h
      subst h
      obtain ⟨_, _, l1, l2, hdec, _⟩ := dedupAux_spec _ _ _ he
      have hmem : e ∈ neighbors.filterMap (edgeOfNeighbor devices) := by
        rw [hdec]
        simp
      obtain ⟨nb, hnb, hedge⟩ := List.mem_filterMap.mp hmem
      obtain ⟨hlt, hconf, hres, hne, hloc⟩ := edgeOfNeighbor_some _ _ _ hedge
      exact ⟨hlt, hconf, nb, hnb, hedge, hres, hne, hloc⟩
    · rw [if_neg hall] at h
      exact absurd h (by simp)
  · intro devices nb r h1 h2
    have hb : (nb.sysName.getD "" == "") = false := by simp [h1]
    simp [resolveRemote, hb, h2]
  · intro devices nb h1
    rw [resolveRemote, h1]

/-- Witness for C9 at a concrete input: the single emitted edge has link type
`lldp` and confidence 90. -/
theorem C9_edge_conditions_witness :
    ({ id := "1.1.1.1:p1-2.2.2.2:", «from» := "1.1.1.1",
       «to» := "2.2.2.2", srcIfIndex := "p1", dstIfIndex := "",
       linkType := "lldp", vlanTags := [],
       confidence := 90 } : TopoEdge).linkType = "lldp"
    ∧ ({ id := "1.1.1.1:p1-2.2.2.2:", «from» := "1.1.1.1",
         «to» := "2.2.2.2", srcIfIndex := "p1", dstIfIndex := "",
         linkType := "lldp", vlanTags := [],
         confidence := 90 } : TopoEdge).confidence = 90 := by
  have h := C9_edge_conditions.1
    [({ hostname := some "a", mgmtIp := some "1.1.1.1" } : Obs),
     ({ hostname := some "b", mgmtIp := some "2.2.2.2" } : Obs)] []
    [({ localDevice := some "1.1.1.1", localPort := some "p1",
        sysName := some "b" } : Neighbor)]
    ⟨[({ hostname := some "a", mgmtIp := some "1.1.1.1" } : Obs),
      ({ hostname := some "b", mgmtIp := some "2.2.2.2" } : Obs)],
     [({ id := "1.1.1.1:p1-2.2.2.2:", «from» := "1.1.1.1",
         «to» := "2.2.2.2", srcIfIndex := "p1", dstIfIndex := "",
         linkType := "lldp", vlanTags := [],
         confidence := 90 } : TopoEdge)]⟩ (by decide)
    ({ id := "1.1.1.1:p1-2.2.2.2:", «from» := "1.1.1.1",
       «to» := "2.2.2.2", srcIfIndex := "p1", dstIfIndex := "",
       linkType := "lldp", vlanTags := [],
       confidence := 90 } : TopoEdge) (by decide)
  exact ⟨h.1, h.2.1⟩

/-! ### Claim C7: override precedence -/

/-- Field-level effect of applying a found mapping: vendor and model are
overwritten with the mapping's values, hostname only when the mapping's
hostname is truthy. -/
theorem applyMapping_fields (dd : Obs) (mm : Mapping) :
    (applyMapping dd mm).vendor = mm.vendor
    ∧ (applyMapping dd mm).model = mm.model
    ∧ (applyMapping dd mm).hostname
        = (match mm.hostname with
           | some h => if h == "" then dd.hostname else some h
           | none => dd.hostname) := by
  rcases hm : mm.hostname with _ | hst
  · simp [applyMapping, hm]
  · by_cases hh : (hst == "") = true
    · simp [applyMapping, hm, hh]
    · simp [applyMapping, hm, hh]

/-- C7: `apply_user_mappings_to_device` consults the MAC mapping first — a
hit overwrites vendor and model (hostname only when supplied) and the
IP mapping is never consulted; a MAC miss falls back to the IP mapping; a
device with conflicting MAC and IP overrides resolves vendor and model from
the MAC override. -/
theorem C7_override_precedence :
    (∀ (rows : List UserSettingsRow) (dd : Obs) (mm : Mapping),
        macLookup rows dd = some mm →
        apply_user_mappings_to_device rows dd = applyMapping dd mm
        ∧ (apply_user_mappings_to_device rows dd).vendor = mm.vendor
        ∧ (apply_user_mappings_to_device rows dd).model = mm.model
        ∧ (apply_user_mappings_to_device rows dd).hostname
            = (match mm.hostname with
               | some h => if h == "" then dd.hostname else some h
               | none => dd.hostname))
    ∧ (∀ (rows : List UserSettingsRow) (dd : Obs),
        macLookup rows dd = none →
        apply_user_mappings_to_device rows dd
          = (match ipLookup rows dd with
             | some im => applyMapping dd im
             | none => dd))
    ∧ (∀ (rows : List UserSettingsRow) (dd : Obs) (m ip : String)
          (mmac mip : Mapping),
        dd.mac = some m → m ≠ "" → m ≠ "Unknown" → dd.mgmtIp = some ip →
        get_device_mapping rows m "mac_mapping" = some mmac →
        get_device_mapping rows ip "ip_mapping" = some mip →
        (apply_user_mappings_to_device rows dd).vendor = mmac.vendor
        ∧ (apply_user_mappings_to_device rows dd).model = mmac.model) := by
  have happly : ∀ (rows : List UserSettingsRow) (dd : Obs) (mm : Mapping),
      macLookup rows dd = some mm →
      apply_user_mappings_to_device rows dd = applyMapping dd mm := by
    intro rows dd mm h
    unfold apply_user_mappings_to_device
    rw [h]
  refine ⟨?_, ?_, ?_⟩
  · intro rows dd mm h
    obtain ⟨hv, hm2, hh⟩ := applyMapping_fields dd mm
    exact ⟨happly rows dd mm h, by rw [happly rows dd mm h, hv],
      by rw [happly rows dd mm h, hm2], by rw [happly rows dd mm h, hh]⟩
  · intro rows dd h
    unfold apply_user_mappings_to_device
    rw [h]
  · intro rows dd m ip mmac mip hm hne1 hne2 hip hmac hipmap
    have hml : macLookup rows dd = some mmac := by
      simp [macLookup, hm, hne1, hne2, hmac]
    obtain ⟨hv, hm2, _⟩ := applyMapping_fields dd mmac
    exact ⟨by rw [happly rows dd mmac hml, hv],
      by rw [happly rows dd mmac hml, hm2]⟩

/-- Witness for C7: a device carrying both a MAC override and a conflicting
IP override resolves vendor and model from the MAC override. -/
theorem C7_override_precedence_witness :
    (apply_user_mappings_to_device
        [({ id := "AA:BB:CC:00:00:01", device_type := "mac_mapping",
            vendor := some "MacVendor",
            model := some "MacModel" } : UserSettingsRow),
         ({ id := "10.0.0.9", device_type := "ip_mapping",
            vendor := some "IpVendor",
            model := some "IpModel" } : UserSettingsRow)]
        ({ mac := some "AA:BB:CC:00:00:01",
           mgmtIp := some "10.0.0.9" } : Obs)).vendor = some "MacVendor"
    ∧ (apply_user_mappings_to_device
        [({ id := "AA:BB:CC:00:00:01", device_type := "mac_mapping",
            vendor := some "MacVendor",
            model := some "MacModel" } : UserSettingsRow),
         ({ id := "10.0.0.9", device_type := "ip_mapping",
            vendor := some "IpVendor",
            model := some "IpModel" } : UserSettingsRow)]
        ({ mac := some "AA:BB:CC:00:00:01",
           mgmtIp := some "10.0.0.9" } : Obs)).model = some "MacModel" :=
  C7_override_precedence.2.2
    [({ id := "AA:BB:CC:00:00:01", device_type := "mac_mapping",
        vendor := some "MacVendor",
        model := some "MacModel" } : UserSettingsRow),
     ({ id := "10.0.0.9", device_type := "ip_mapping",
        vendor := some "IpVendor",
        model := some "IpModel" } : UserSettingsRow)]
    ({ mac := some "AA:BB:CC:00:00:01", mgmtIp := some "10.0.0.9" } : Obs)
    "AA:BB:CC:00:00:01" "10.0.0.9"
    ({ vendor := some "MacVendor", model := some "MacModel" } : Mapping)
    ({ vendor := some "IpVendor", model := some "IpModel" } : Mapping)
    rfl (by decide) (by decide) rfl (by decide) (by decide)

/-! ### Lemmas about the discovery orchestrator -/

/-- A device upsert pass over an empty committed table touches no table row
and appends one pending row per keyed observation, in order. -/
theorem upsert_fold_nil_table (obs : List Obs) (pending : List DeviceRow) :
    obs.foldl upsertDeviceStep ([], pending)
      = ([], pending ++ obs.filterMap
          (fun d => (keyOf d).map (fun k => updDevice d { id := k }))) := by
  induction obs generalizing pending with
  | nil => simp
  | cons d rest ih =>
    rw [List.foldl_cons]
    rcases hk : keyOf d with _ | k
    · have hstep : upsertDeviceStep ([], pending) d = ([], pending) := by
        simp [upsertDeviceStep, hk]
      rw [hstep, ih]
      simp [List.filterMap_cons, hk]
    · have hstep : upsertDeviceStep ([], pending) d
          = ([], pending ++ [updDevice d { id := k }]) := by
        simp [upsertDeviceStep, hk]
      rw [hstep, ih]
      simp [List.filterMap_cons, hk]

/-- An interface upsert pass over an empty committed table appends one
pending row per (device, interface) pair, in order. -/
theorem iface_fold_nil_table (pairs : List (Obs × IfaceObs))
    (pending : List IfaceRow) :
    pairs.foldl upsertIfaceStep ([], pending)
      = ([], pending ++ pairs.map (fun p =>
          updIface p.2 { id := ifaceIdOf p.1 p.2, device_id := deviceKeyRaw p.1,
                         if_index := p.2.ifIndex })) := by
  induction pairs generalizing pending with
  | nil => simp
  | cons p rest ih =>
    rw [List.foldl_cons]
    have hstep : upsertIfaceStep ([], pending) p
        = ([], pending ++ [updIface p.2
            { id := ifaceIdOf p.1 p.2, device_id := deviceKeyRaw p.1,
              if_index := p.2.ifIndex }]) := by
      simp [upsertIfaceStep]
    rw [hstep, ih]
    simp

/-- Flushing succeeds and appends in order when the pending primary keys are
pairwise distinct and collide with nothing already in the table. -/
theorem insertAll_some {α : Type} (idOf : α → String) (pending : List α)
    (table : List α)
    (hnd : (pending.map idOf).Nodup)
    (hdisj : ∀ p ∈ pending, ∀ t ∈ table, idOf t ≠ idOf p) :
    insertAll idOf table pending = some (table ++ pending) := by
  induction pending generalizing table with
  | nil => simp [insertAll]
  | cons p rest ih =>
    have hnocoll : table.any (fun r => idOf r == idOf p) = false := by
      by_contra hc
      rw [Bool.not_eq_false, List.any_eq_true] at hc
      obtain ⟨t, ht, htp⟩ := hc
      exact hdisj p (List.mem_cons_self _ _) t ht (by simpa using htp)
    rw [insertAll, hnocoll]
    have hnd' : (rest.map idOf).Nodup := by
      rw [List.map_cons, List.nodup_cons] at hnd
      exact hnd.2
    have hhead : idOf p ∉ rest.map idOf := by
      rw [List.map_cons, List.nodup_cons] at hnd
      exact hnd.1
    have hdisj' : ∀ q ∈ rest, ∀ t ∈ table ++ [p], idOf t ≠ idOf q := by
      intro q hq t ht
      rcases List.mem_append.mp ht with htl | htp
      · exact hdisj q (List.mem_cons_of_mem _ hq) t htl
      · rw [List.mem_singleton] at htp
        subst htp
        intro hEq
        exact hhead (hEq ▸ List.mem_map_of_mem idOf hq)
    rw [ih (table ++ [p]) hnd' hdisj']
    simp

/-- Pointwise-total `filterMap` is a `map`. -/
theorem filterMap_eq_map_of {α β : Type} (l : List α) (g : α → Option β)
    (g' : α → β) (h : ∀ a ∈ l, g a = some (g' a)) :
    l.filterMap g = l.map g' := by
  induction l with
  | nil => rfl
  | cons a rest ih =>
    have hrest := ih (fun b hb => h b (List.mem_cons_of_mem _ hb))
    simp [List.filterMap_cons, h a (List.mem_cons_self _ _), hrest]

/-! ### Claim C1: empty-probe epoch -/

/-- C1 counterexample: with one persisted device and one persisted edge and
an empty probe result, the epoch leaves the inventory unchanged (that part
of the claim holds) but its return value carries an empty edge list even
though the prior persisted snapshot contains an edge — the returned value is
not the prior persisted snapshot. -/
theorem C1_counterexample :
    (run_discovery []
        (⟨[({ id := "d1", hostname := some "h1", mgmt_ip := some "10.0.0.1",
              status := some "up" } : DeviceRow)], [],
          [({ id := "e1", src_device_id := "d1", src_if_index := .i 0,
              dst_device_id := "d2", dst_if_index := .i 0,
              link_type := "lldp", vlan_tags := [],
              confidence := 90 } : EdgeRow)]⟩ : Inventory)).1
      = (⟨[({ id := "d1", hostname := some "h1", mgmt_ip := some "10.0.0.1",
              status := some "up" } : DeviceRow)], [],
          [({ id := "e1", src_device_id := "d1", src_if_index := .i 0,
              dst_device_id := "d2", dst_if_index := .i 0,
              link_type := "lldp", vlan_tags := [],
              confidence := 90 } : EdgeRow)]⟩ : Inventory)
    ∧ (run_discovery []
        (⟨[({ id := "d1", hostname := some "h1", mgmt_ip := some "10.0.0.1",
              status := some "up" } : DeviceRow)], [],
          [({ id := "e1", src_device_id := "d1", src_if_index := .i 0,
              dst_device_id := "d2", dst_if_index := .i 0,
              link_type := "lldp", vlan_tags := [],
              confidence := 90 } : EdgeRow)]⟩ : Inventory)).2
      = .ok (.cached
          [({ id := "d1", label := "h1", title := some "10.0.0.1",
              group := "device" } : NodeView)] [])
    ∧ ([({ id := "e1", src_device_id := "d1", src_if_index := .i 0,
           dst_device_id := "d2", dst_if_index := .i 0,
           link_type := "lldp", vlan_tags := [],
           confidence := 90 } : EdgeRow)] : List EdgeRow) ≠ [] := by
  decide

/-- C1 amended: an epoch with zero observations never raises and does not
mutate the persisted inventory — the post-epoch inventory equals the
pre-epoch inventory exactly — and it returns the prior persisted devices
rendered as view nodes together with a literal empty edge list (not the
persisted edge set). -/
theorem C1_empty_probe_frame (db : Inventory) :
    run_discovery [] db
      = (db, .ok (.cached (db.devices.map nodeViewOf) [])) := rfl

/-! ### Claim C3: upsert field semantics -/

/-- C3 counterexample: a persisted device with stored model `"X"` upserted
from an observation carrying no `model` key ends with model `None` — the
field absent from the observation is overwritten with `None`, not left at
its previously stored value. -/
theorem C3_counterexample :
    (run_discovery
        [({ id := some "d1", hostname := some "new-host",
            mgmtIp := some "10.0.0.1", vendor := some "V2" } : Obs)]
        (⟨[({ id := "d1", hostname := some "old-host",
              mgmt_ip := some "10.0.0.1", vendor := some "V",
              model := some "X", status := some "up" } : DeviceRow)],
          [], []⟩ : Inventory)).1.devices
      = [({ id := "d1", hostname := some "new-host",
            mgmt_ip := some "10.0.0.1", vendor := some "V2",
            model := none, status := some "up" } : DeviceRow)]
    ∧ (⟨[({ id := "d1", hostname := some "old-host",
            mgmt_ip := some "10.0.0.1", vendor := some "V",
            model := some "X", status := some "up" } : DeviceRow)],
        [], []⟩ : Inventory).devices.map DeviceRow.model = [some "X"]
    ∧ (run_discovery
        [({ id := some "d1", hostname := some "new-host",
            mgmtIp := some "10.0.0.1", vendor := some "V2" } : Obs)]
        (⟨[({ id := "d1", hostname := some "old-host",
              mgmt_ip := some "10.0.0.1", vendor := some "V",
              model := some "X", status := some "up" } : DeviceRow)],
          [], []⟩ : Inventory)).1.devices.map DeviceRow.model = [none] := by
  decide

/-- C3 amended: upserting an observation for an already persisted device
overwrites every tracked column with the observation's value — hostname,
management address, vendor and model take the observation's (possibly
absent, hence `None`) values and status takes the observation's status or
`"up"` when absent; no field keeps its previously stored value.  The epoch
commits the updated row in place, leaves the interface table unchanged and
replaces the edge table with the (empty) builder output. -/
theorem C3_amended_full_overwrite (db : Inventory) (d : Obs) (r : DeviceRow)
    (ip : String)
    (hr : r ∈ db.devices)
    (hkey : keyOf d = some r.id)
    (hip : d.mgmtIp = some ip)
    (hipne : ip ≠ "")
    (hipmem : some ip ∈ db.devices.map (fun x => x.mgmt_ip))
    (hifaces : d.interfaces = []) :
    run_discovery [d] db
      = (⟨db.devices.map (fun r0 => if r0.id == r.id then updDevice d r0 else r0),
          db.interfaces, []⟩,
         .ok (.topo ⟨[d], []⟩))
    ∧ (updDevice d r).hostname = d.hostname
    ∧ (updDevice d r).mgmt_ip = d.mgmtIp
    ∧ (updDevice d r).vendor = d.vendor
    ∧ (updDevice d r).model = d.model
    ∧ (updDevice d r).status = some (d.status.getD "up")
    ∧ (updDevice d r).id = r.id := by
  have htr : truthyOpt d.mgmtIp = some ip := by simp [truthyOpt, hip, hipne]
  have hsome : d.mgmtIp.isSome = true := by simp [hip]
  have hcont : ∃ a ∈ db.devices, a.mgmt_ip = some ip := by
    obtain ⟨a, ha, haeq⟩ := List.mem_map.mp hipmem
    exact ⟨a, ha, haeq⟩
  have hany : ∃ x ∈ db.devices, x.id = r.id := ⟨r, hr, rfl⟩
  refine ⟨?_, rfl, rfl, rfl, rfl, rfl, rfl⟩
  simp [run_discovery, htr, hsome, hcont, hany, hkey, hifaces,
    upsertDeviceStep, build_topology, dedupEdges, dedupEdgesAux, insertAll]

/-- Witness for C3 amended at a concrete input: the upsert of an observation
without a `model` key leaves the stored device with model `None`. -/
theorem C3_amended_full_overwrite_witness :
    (run_discovery
        [({ id := some "d1", hostname := some "new-host",
            mgmtIp := some "10.0.0.1", vendor := some "V2" } : Obs)]
        (⟨[({ id := "d1", hostname := some "old-host",
              mgmt_ip := some "10.0.0.1", vendor := some "V",
              model := some "X", status := some "up" } : DeviceRow)],
          [], []⟩ : Inventory)).1.devices.map DeviceRow.model = [none] := by
  have h := (C3_amended_full_overwrite
      (⟨[({ id := "d1", hostname := some "old-host",
            mgmt_ip := some "10.0.0.1", vendor := some "V",
            model := some "X", status := some "up" } : DeviceRow)],
        [], []⟩ : Inventory)
      ({ id := some "d1", hostname := some "new-host",
         mgmtIp := some "10.0.0.1", vendor := some "V2" } : Obs)
      ({ id := "d1", hostname := some "old-host",
         mgmt_ip := some "10.0.0.1", vendor := some "V",
         model := some "X", status := some "up" } : DeviceRow)
      "10.0.0.1" (by decide) (by decide) rfl (by decide) (by decide) rfl).1
  rw [h]
  decide

/-! ### Claim C4: network-change reset -/

/-- C4: when the persisted device set is non-empty and none of the truthy
management addresses observed this (non-empty) epoch occurs among the
persisted management addresses, the epoch discards all persisted devices,
interfaces and edges and commits exactly one fresh device row per
observation (in observation order), the interfaces of the new observations,
and zero edges.  Observations are well-formed as the probe adapters produce
them — truthy `id` and `mgmtIp` — and their keys are pairwise distinct. -/
theorem C4_network_change_reset (db : Inventory) (obs : List Obs)
    (hne : obs ≠ [])
    (hid : ∀ x ∈ obs, ∃ s, x.id = some s ∧ s ≠ "")
    (hip : ∀ x ∈ obs, ∃ s, x.mgmtIp = some s ∧ s ≠ "")
    (hdev : db.devices ≠ [])
    (hdisj : ∀ s ∈ obs.filterMap (fun x => truthyOpt x.mgmtIp),
        some s ∉ db.devices.map (fun x => x.mgmt_ip))
    (hkeys : (obs.filterMap keyOf).Nodup)
    (hifkeys : (obs.flatMap (fun x =>
        x.interfaces.map (fun i => ifaceIdOf x i))).Nodup) :
    run_discovery obs db
      = (⟨obs.map (fun x => updDevice x { id := (keyOf x).getD "" }),
          obs.flatMap (fun x => x.interfaces.map (fun i =>
            updIface i { id := ifaceIdOf x i, device_id := deviceKeyRaw x,
                         if_index := i.ifIndex })),
          []⟩,
         .ok (.topo ⟨obs, []⟩)) := by
  have hkeyOf : ∀ x ∈ obs, ∃ s, keyOf x = some s ∧ s ≠ "" := by
    intro x hx
    obtain ⟨s, hs, hsne⟩ := hid x hx
    refine ⟨s, ?_, hsne⟩
    simp [keyOf, deviceKeyRaw, truthyOpt, hs, hsne]
  obtain ⟨d0, rest, hobs⟩ : ∃ d0 rest, obs = d0 :: rest := by
    rcases obs with _ | ⟨d0, rest⟩
    · exact absurd rfl hne
    · exact ⟨d0, rest, rfl⟩
  subst hobs
  have hchange : (!db.devices.isEmpty &&
      ((d0 :: rest).filterMap (fun d => truthyOpt d.mgmtIp)).all
        (fun s => !((db.devices.map (fun d => d.mgmt_ip)).contains (some s))))
      = true := by
    have h1 : db.devices.isEmpty = false := List.isEmpty_eq_false.mpr hdev
    have h2 : ((d0 :: rest).filterMap (fun d => truthyOpt d.mgmtIp)).all
        (fun s => !((db.devices.map (fun d => d.mgmt_ip)).contains (some s)))
        = true := by
      rw [List.all_eq_true]
      intro s hs
      have hcf : (db.devices.map (fun d => d.mgmt_ip)).contains (some s)
          = false := by
        by_contra hc
        rw [Bool.not_eq_false] at hc
        exact hdisj s hs (by simpa [List.elem_iff] using hc)
      rw [hcf]
      rfl
    rw [h1, h2]
    rfl
  have hall : (d0 :: rest).all (fun d => d.mgmtIp.isSome) = true := by
    rw [List.all_eq_true]
    intro x hx
    obtain ⟨s, hs, _⟩ := hip x hx
    rw [hs]
    rfl
  have hbt : build_topology (d0 :: rest) [] []
      = some ⟨d0 :: rest, []⟩ := by
    unfold build_topology
    rw [if_pos hall]
    rfl
  have hpdmap : (d0 :: rest).filterMap
        (fun x => (keyOf x).map (fun k => updDevice x { id := k }))
      = (d0 :: rest).map (fun x => updDevice x { id := (keyOf x).getD "" }) := by
    apply filterMap_eq_map_of
    intro a ha
    obtain ⟨s, hs, _⟩ := hkeyOf a ha
    rw [hs]
    rfl
  have hpdids : ((d0 :: rest).filterMap
        (fun x => (keyOf x).map (fun k => updDevice x { id := k }))).map
          DeviceRow.id
      = (d0 :: rest).filterMap keyOf := by
    rw [List.map_filterMap]
    have hpt : ∀ x : Obs, Option.map DeviceRow.id
        ((keyOf x).map (fun k => updDevice x { id := k })) = keyOf x := by
      intro x
      rcases keyOf x with _ | k <;> rfl
    simp only [hpt]
  have hinsD : insertAll DeviceRow.id []
        ((d0 :: rest).filterMap
          (fun x => (keyOf x).map (fun k => updDevice x { id := k })))
      = some ((d0 :: rest).filterMap
          (fun x => (keyOf x).map (fun k => updDevice x { id := k }))) := by
    have h := insertAll_some DeviceRow.id
      ((d0 :: rest).filterMap
        (fun x => (keyOf x).map (fun k => updDevice x { id := k }))) []
      (by rw [hpdids]; exact hkeys)
      (by intro p hp t ht; exact absurd ht (List.not_mem_nil t))
    simpa using h
  have hpifmap : ((d0 :: rest).flatMap
        (fun d => d.interfaces.map (fun i => (d, i)))).map
          (fun p => updIface p.2
            { id := ifaceIdOf p.1 p.2, device_id := deviceKeyRaw p.1,
              if_index := p.2.ifIndex })
      = (d0 :: rest).flatMap (fun x => x.interfaces.map (fun i =>
          updIface i { id := ifaceIdOf x i, device_id := deviceKeyRaw x,
                       if_index := i.ifIndex })) := by
    rw [List.map_flatMap]
    simp only [List.map_map]
    rfl
  have hpifids : ((d0 :: rest).flatMap (fun x => x.interfaces.map (fun i =>
        updIface i { id := ifaceIdOf x i, device_id := deviceKeyRaw x,
                     if_index := i.ifIndex }))).map IfaceRow.id
      = (d0 :: rest).flatMap (fun x =>
          x.interfaces.map (fun i => ifaceIdOf x i)) := by
    rw [List.map_flatMap]
    simp only [List.map_map]
    rfl
  have hinsI : insertAll IfaceRow.id []
        ((d0 :: rest).flatMap (fun x => x.interfaces.map (fun i =>
          updIface i { id := ifaceIdOf x i, device_id := deviceKeyRaw x,
                       if_index := i.ifIndex })))
      = some ((d0 :: rest).flatMap (fun x => x.interfaces.map (fun i =>
          updIface i { id := ifaceIdOf x i, device_id := deviceKeyRaw x,
                       if_index := i.ifIndex }))) := by
    have h := insertAll_some IfaceRow.id
      ((d0 :: rest).flatMap (fun x => x.interfaces.map (fun i =>
        updIface i { id := ifaceIdOf x i, device_id := deviceKeyRaw x,
                     if_index := i.ifIndex }))) []
      (by rw [hpifids]; exact hifkeys)
      (by intro p hp t ht; exact absurd ht (List.not_mem_nil t))
    simpa using h
  simp only [run_discovery, List.isEmpty_cons, Bool.false_eq_true, if_false]
  rw [if_pos hchange]
  simp only []
  rw [upsert_fold_nil_table, iface_fold_nil_table]
  simp only [List.nil_append]
  rw [hbt]
  simp only [List.map_nil]
  rw [hpifmap, hinsD, hinsI]
  simp only [insertAll]
  rw [hpdmap]

/-- Witness for C4 at the spec's example: persisted devices at 10.0.0.5 and
10.0.0.6 (with a stale edge and interface), a new epoch reporting only
192.168.1.2 — the post-epoch inventory contains exactly the new device and
zero edges. -/
theorem C4_network_change_reset_witness :
    run_discovery
        [({ id := some "192.168.1.2", hostname := some "host-new",
            mgmtIp := some "192.168.1.2", status := some "up" } : Obs)]
        (⟨[({ id := "dA", mgmt_ip := some "10.0.0.5",
              status := some "up" } : DeviceRow),
           ({ id := "dB", mgmt_ip := some "10.0.0.6",
              status := some "up" } : DeviceRow)],
          [({ id := "dA:1", device_id := some "dA",
              if_index := some 1 } : IfaceRow)],
          [({ id := "eOld", src_device_id := "dA", src_if_index := .i 0,
              dst_device_id := "dB", dst_if_index := .i 0,
              link_type := "lldp", vlan_tags := [],
              confidence := 90 } : EdgeRow)]⟩ : Inventory)
      = (⟨[({ id := "192.168.1.2", hostname := some "host-new",
              mgmt_ip := some "192.168.1.2", vendor := none, model := none,
              status := some "up" } : DeviceRow)], [], []⟩,
         .ok (.topo ⟨[({ id := some "192.168.1.2", hostname := some "host-new",
                         mgmtIp := some "192.168.1.2",
                         status := some "up" } : Obs)], []⟩)) := by
  have h := C4_network_change_reset
    (⟨[({ id := "dA", mgmt_ip := some "10.0.0.5",
          status := some "up" } : DeviceRow),
       ({ id := "dB", mgmt_ip := some "10.0.0.6",
          status := some "up" } : DeviceRow)],
      [({ id := "dA:1", device_id := some "dA",
          if_index := some 1 } : IfaceRow)],
      [({ id := "eOld", src_device_id := "dA", src_if_index := .i 0,
          dst_device_id := "dB", dst_if_index := .i 0,
          link_type := "lldp", vlan_tags := [],
          confidence := 90 } : EdgeRow)]⟩ : Inventory)
    [({ id := some "192.168.1.2", hostname := some "host-new",
        mgmtIp := some "192.168.1.2", status := some "up" } : Obs)]
    (by decide)
    (by
      intro x hx
      rw [List.mem_singleton] at hx
      subst hx
      exact ⟨"192.168.1.2", rfl, by decide⟩)
    (by
      intro x hx
      rw [List.mem_singleton] at hx
      subst hx
      exact ⟨"192.168.1.2", rfl, by decide⟩)
    (by decide) (by decide) (by decide) (by decide)
  rw [h]
  decide

end Netview
